import Mathlib

/-!
Verification of the `syntheo` semantic code-indexer core against its
natural-language specification.

The TypeScript sources are shallowly embedded as executable Lean
definitions.  JavaScript numbers that hold integral values (line numbers,
labels, byte counts, timestamps) are modelled as `Nat`/`Int`; fractional
scores are modelled as `ℚ` (IEEE-754 rounding and `NaN` are out of scope:
rational division by zero yields `0` where JavaScript would produce `NaN`).
JavaScript strings are modelled as Lean `String` over code points (all
inputs exercised here are ASCII, where the two agree).
-/

set_option maxRecDepth 40000

namespace Syntheo

/-! ## JavaScript string helpers -/

/-- Does `pat` occur as a leading segment of `l`? -/
def leadSegment : List Char → List Char → Bool
  | [], _ => true
  | _ :: _, [] => false
  | c :: cs, h :: hs => c = h && leadSegment cs hs

/-- Does `pat` occur contiguously anywhere in `l`? -/
def occursIn (pat : List Char) : List Char → Bool
  | [] => leadSegment pat []
  | h :: hs => leadSegment pat (h :: hs) || occursIn pat hs

/-- The `haystack.includes(needle)` — substring test on code points. -/
def jsIncludes (haystack needle : String) : Bool :=
  occursIn needle.data haystack.data

/-- The `s.toLowerCase()` (ASCII range, which covers every string handled here). -/
def jsToLower (s : String) : String :=
  ⟨s.data.map Char.toLower⟩

/-- Split a character list at every character satisfying `p`, keeping
empty segments (structural, kernel-evaluable). -/
def splitPredAux (p : Char → Bool) : List Char → List (List Char)
  | [] => [[]]
  | h :: t =>
      let r := splitPredAux p t
      if p h then [] :: r
      else
        match r with
        | [] => [[h]]
        | x :: xs => (h :: x) :: xs

/-- The `s.split(/\s+/).filter(w => w.length > 0)` — the non-empty
whitespace-separated words of `s`. -/
def wsWords (s : String) : List String :=
  ((splitPredAux Char.isWhitespace s.data).map (fun l => String.mk l)).filter
    (fun w => w ≠ "")

/-- The `parts.join(sep)`. -/
def joinSep (sep : String) : List String → String
  | [] => ""
  | [x] => x
  | x :: xs => x ++ sep ++ joinSep sep xs

/-! ## SHA-256 (`crypto.createHash('sha256')`), on bytes as `Nat` mod 2^8,
words as `Nat` mod 2^32 -/

def pow32 : Nat := 4294967296

def mask32 (x : Nat) : Nat := x % pow32

def rotr32 (x n : Nat) : Nat := mask32 ((x >>> n) ||| (x <<< (32 - n)))

def not32 (x : Nat) : Nat := x ^^^ 4294967295

def bsig0 (x : Nat) : Nat := rotr32 x 2 ^^^ rotr32 x 13 ^^^ rotr32 x 22

def bsig1 (x : Nat) : Nat := rotr32 x 6 ^^^ rotr32 x 11 ^^^ rotr32 x 25

def ssig0 (x : Nat) : Nat := rotr32 x 7 ^^^ rotr32 x 18 ^^^ (x >>> 3)

def ssig1 (x : Nat) : Nat := rotr32 x 17 ^^^ rotr32 x 19 ^^^ (x >>> 10)

def sha256K : List Nat :=
  [1116352408, 1899447441, 3049323471, 3921009573, 961987163,
   1508970993, 2453635748, 2870763221, 3624381080, 310598401,
   607225278, 1426881987, 1925078388, 2162078206, 2614888103,
   3248222580, 3835390401, 4022224774, 264347078, 604807628,
   770255983, 1249150122, 1555081692, 1996064986, 2554220882,
   2821834349, 2952996808, 3210313671, 3336571891, 3584528711,
   113926993, 338241895, 666307205, 773529912, 1294757372,
   1396182291, 1695183700, 1986661051, 2177026350, 2456956037,
   2730485921, 2820302411, 3259730800, 3345764771, 3516065817,
   3600352804, 4094571909, 275423344, 430227734, 506948616,
   659060556, 883997877, 958139571, 1322822218, 1537002063,
   1747873779, 1955562222, 2024104815, 2227730452, 2361852424,
   2428436474, 2756734187, 3204031479, 3329325298]

def sha256H0 : List Nat :=
  [1779033703, 3144134277, 1013904242, 2773480762, 1359893119,
   2600822924, 528734635, 1541459225]

/-- Message padding: append `0x80`, zeros to 56 mod 64, then the bit length
as 8 big-endian bytes. -/
def sha256Pad (msg : List Nat) : List Nat :=
  let len := msg.length
  let zeros := (119 - len % 64) % 64
  let bitLen := 8 * len
  msg ++ [0x80] ++ List.replicate zeros 0 ++
    [(bitLen >>> 56) % 256, (bitLen >>> 48) % 256, (bitLen >>> 40) % 256,
     (bitLen >>> 32) % 256, (bitLen >>> 24) % 256, (bitLen >>> 16) % 256,
     (bitLen >>> 8) % 256, bitLen % 256]

/-- Split a byte list into 64-byte chunks (fuel-driven so that the kernel
can evaluate it; the fuel `l.length` always suffices). -/
def chunks64Aux : Nat → List Nat → List (List Nat)
  | 0, _ => []
  | _, [] => []
  | fuel + 1, l => l.take 64 :: chunks64Aux fuel (l.drop 64)

def chunks64 (l : List Nat) : List (List Nat) :=
  chunks64Aux l.length l

/-- Big-endian 4-byte groups to 32-bit words. -/
def bytesToWords : List Nat → List Nat
  | a :: b :: c :: d :: rest => (a <<< 24 ||| b <<< 16 ||| c <<< 8 ||| d) :: bytesToWords rest
  | _ => []

/-- Extend the 16-word block to the 64-word message schedule. -/
def extendSchedule : Nat → List Nat → List Nat
  | 0, w => w
  | n + 1, w =>
      let t := w.length
      let x := mask32 (ssig1 (w.getD (t - 2) 0) + w.getD (t - 7) 0 +
                       ssig0 (w.getD (t - 15) 0) + w.getD (t - 16) 0)
      extendSchedule n (w ++ [x])

structure Sha256State where
  a : Nat
  b : Nat
  c : Nat
  d : Nat
  e : Nat
  f : Nat
  g : Nat
  h : Nat
deriving Repr, DecidableEq

def sha256Round (st : Sha256State) (kw : Nat × Nat) : Sha256State :=
  let t1 := mask32 (st.h + bsig1 st.e + ((st.e &&& st.f) ^^^ (not32 st.e &&& st.g)) +
                    kw.1 + kw.2)
  let t2 := mask32 (bsig0 st.a + ((st.a &&& st.b) ^^^ (st.a &&& st.c) ^^^ (st.b &&& st.c)))
  ⟨mask32 (t1 + t2), st.a, st.b, st.c, mask32 (st.d + t1), st.e, st.f, st.g⟩

def sha256Compress (h : List Nat) (block : List Nat) : List Nat :=
  let w := extendSchedule 48 (bytesToWords block)
  let st0 : Sha256State :=
    ⟨h.getD 0 0, h.getD 1 0, h.getD 2 0, h.getD 3 0,
     h.getD 4 0, h.getD 5 0, h.getD 6 0, h.getD 7 0⟩
  let st := (sha256K.zip w).foldl sha256Round st0
  [mask32 (h.getD 0 0 + st.a), mask32 (h.getD 1 0 + st.b),
   mask32 (h.getD 2 0 + st.c), mask32 (h.getD 3 0 + st.d),
   mask32 (h.getD 4 0 + st.e), mask32 (h.getD 5 0 + st.f),
   mask32 (h.getD 6 0 + st.g), mask32 (h.getD 7 0 + st.h)]

def sha256Words (msg : List Nat) : List Nat :=
  (chunks64 (sha256Pad msg)).foldl sha256Compress sha256H0

def hexDigit (n : Nat) : Char :=
  if n < 10 then Char.ofNat (48 + n) else Char.ofNat (87 + n)

/-- Fixed-width lowercase hex rendering of `n` (`digits` nibbles). -/
def toHex (digits n : Nat) : String :=
  ⟨((List.range digits).map (fun i => hexDigit ((n >>> (4 * (digits - 1 - i))) &&& 15)))⟩

def sha256HexBytes (msg : List Nat) : String :=
  String.join ((sha256Words msg).map (toHex 8))

/-- UTF-8 encoding of a code point (as Node's `Buffer`/`crypto` see strings). -/
def utf8EncodeCharNat (c : Nat) : List Nat :=
  if c < 0x80 then [c]
  else if c < 0x800 then [0xC0 ||| (c >>> 6), 0x80 ||| (c &&& 0x3F)]
  else if c < 0x10000 then
    [0xE0 ||| (c >>> 12), 0x80 ||| ((c >>> 6) &&& 0x3F), 0x80 ||| (c &&& 0x3F)]
  else
    [0xF0 ||| (c >>> 18), 0x80 ||| ((c >>> 12) &&& 0x3F),
     0x80 ||| ((c >>> 6) &&& 0x3F), 0x80 ||| (c &&& 0x3F)]

def utf8Bytes (s : String) : List Nat :=
  (s.data.map Char.toNat).flatMap utf8EncodeCharNat

/-- The `crypto.createHash('sha256').update(content).digest('hex')`. -/
def sha256Hex (s : String) : String :=
  sha256HexBytes (utf8Bytes s)

/-! ## ChunkingStrategy (`src/parsers/ChunkingStrategy.ts`) -/

/-- The `CodeBlock` interface. -/
structure CodeBlock where
  id : String
  filePath : String
  startLine : Nat
  endLine : Nat
  content : String
  contentHash : String
  blockType : String
  language : String
  symbolName : Option String
  parentSymbol : Option String
  tokens : Nat
  createdAt : Nat
  updatedAt : Nat
deriving Repr, DecidableEq

/-- The `ChunkingOptions` (the three boolean flags do not influence any code
path of `ChunkingStrategy` and are omitted). -/
structure ChunkingOptions where
  targetTokens : Nat
  maxTokens : Nat
  overlapTokens : Nat
deriving Repr, DecidableEq

/-- The `DEFAULT_OPTIONS`. -/
def defaultChunkingOptions : ChunkingOptions :=
  { targetTokens := 512, maxTokens := 2048, overlapTokens := 50 }

/- A tree-sitter `SyntaxNode` as consumed by the chunker: node kind,
0-based start/end rows, node text and children.  The child array is
represented by the isomorphic `SForest` so that the tree walk is a
mutual structural recursion the kernel can evaluate. -/
mutual

inductive SNode where
  | mk (type : String) (startRow : Nat) (endRow : Nat) (text : String)
       (children : SForest)

inductive SForest where
  | nil
  | cons (head : SNode) (tail : SForest)

end

def SNode.type : SNode → String
  | .mk t _ _ _ _ => t

def SNode.startRow : SNode → Nat
  | .mk _ s _ _ _ => s

def SNode.endRow : SNode → Nat
  | .mk _ _ e _ _ => e

def SNode.text : SNode → String
  | .mk _ _ _ tx _ => tx

def SNode.children : SNode → SForest
  | .mk _ _ _ _ cs => cs

def SForest.toList : SForest → List SNode
  | .nil => []
  | .cons h t => h :: t.toList

def forestOfList : List SNode → SForest
  | [] => .nil
  | h :: t => .cons h (forestOfList t)

def SNode.childList (n : SNode) : List SNode :=
  n.children.toList

/-- The `estimateTokens`: `Math.ceil(0.75 * word_count)` where words are the
non-empty whitespace-separated runs. -/
def estimateTokens (content : String) : Nat :=
  (3 * (wsWords content).length + 3) / 4

/-- The `content.split('\n')`. -/
def splitLines (content : String) : List String :=
  (splitPredAux (fun c => c = '\n') content.data).map (fun l => String.mk l)

/-- The `extractNodeContent`: `lines.slice(startRow, endRow + 1).join('\n')`. -/
def extractNodeContent (content : String) (startRow endRow : Nat) : String :=
  joinSep "\n" (((splitLines content).drop startRow).take (endRow + 1 - startRow))

/-- The `isSemanticBlock`: the per-language semantic node kinds
(unknown languages fall back to the JavaScript list). -/
def isSemanticBlock (language : String) (nodeType : String) : Bool :=
  let types : List String :=
    if language = "typescript" then
      ["function_declaration", "function_expression", "arrow_function",
       "class_declaration", "class_expression", "method_definition",
       "interface_declaration", "type_alias_declaration", "enum_declaration"]
    else if language = "python" then
      ["function_definition", "class_definition", "decorated_definition"]
    else
      ["function_declaration", "function_expression", "arrow_function",
       "class_declaration", "class_expression", "method_definition"]
  types.contains nodeType

/-- The `extractSymbolName`: text of the first child whose kind is
`identifier` or `property_identifier`. -/
def extractSymbolName (n : SNode) : Option String :=
  (n.childList.find? (fun c => c.type = "identifier" || c.type = "property_identifier")).map
    SNode.text

/-- The `generateId`: first 16 hex characters of
SHA-256 of `` `${filePath}:${startLine}:${endLine}:${blockType}:${chunkIndex}` ``.
The line numbers hashed are whatever the call site passes in. -/
def generateId (filePath : String) (startLine endLine : Nat) (blockType : String)
    (chunkIndex : Nat) : String :=
  ⟨(sha256Hex (filePath ++ ":" ++ toString startLine ++ ":" ++ toString endLine ++
      ":" ++ blockType ++ ":" ++ toString chunkIndex)).data.take 16⟩

/-- The inner `while` of `chunkLargeNode`: starting at `chunkEnd` with
accumulated `chunkSize`, advance while `chunkEnd <= endLine` and
`chunkSize < targetTokens`; returns the final `chunkEnd`. -/
def accumulateWindow (lines : List String) (target endLine : Nat) :
    Nat → Nat → Nat → Nat
  | 0, chunkEnd, _ => chunkEnd
  | fuel + 1, chunkEnd, chunkSize =>
      if chunkEnd ≤ endLine ∧ chunkSize < target then
        accumulateWindow lines target endLine fuel (chunkEnd + 1)
          (chunkSize + estimateTokens (lines.getD chunkEnd ""))
      else chunkEnd

/-- The outer `while` of `chunkLargeNode`, producing the local `blocks`
array.  `Math.max(currentLine - overlap, lastChunkEnd)` is modelled with
truncated `Nat` subtraction, which agrees with the JavaScript value
because `lastChunkEnd ≥ 0`.  The fuel `endLine + 1 - startLine` bounds the
number of iterations whenever `targetTokens ≥ 1` (each iteration then
advances `currentLine`); the source would loop forever for
`targetTokens = 0`, a configuration it never uses. -/
def chunkLargeLoop (opts : ChunkingOptions) (filePath blockType language : String)
    (symbolName parentSymbol : Option String) (lines : List String)
    (endLine now : Nat) : Nat → Nat → Nat → Nat → List CodeBlock
  | 0, _, _, _ => []
  | fuel + 1, currentLine, lastChunkEnd, idx =>
      if currentLine ≤ endLine then
        let chunkEnd := accumulateWindow lines opts.targetTokens endLine
          (endLine + 1 - currentLine) currentLine 0
        let lo := max (currentLine - opts.overlapTokens) lastChunkEnd
        let hi := min (chunkEnd + opts.overlapTokens) (endLine + 1)
        let chunkContent := joinSep "\n" ((lines.drop lo).take (hi - lo))
        let b : CodeBlock :=
          { id := generateId filePath currentLine chunkEnd blockType idx
            filePath := filePath
            startLine := lo + 1
            endLine := hi + 1
            content := chunkContent
            contentHash := sha256Hex chunkContent
            blockType := blockType
            language := language
            symbolName := symbolName
            parentSymbol := parentSymbol
            tokens := estimateTokens chunkContent
            createdAt := now
            updatedAt := now }
        b :: chunkLargeLoop opts filePath blockType language symbolName parentSymbol
          lines endLine now fuel chunkEnd chunkEnd (idx + 1)
      else []

/-- The full `blocks` list accumulated inside `chunkLargeNode`. -/
def chunkLargeNodeAll (opts : ChunkingOptions) (n : SNode)
    (filePath content language : String) (parentSymbol : Option String)
    (now : Nat) : List CodeBlock :=
  chunkLargeLoop opts filePath n.type language (extractSymbolName n) parentSymbol
    (splitLines content) n.endRow now (n.endRow + 1 - n.startRow) n.startRow n.startRow 0

/-- The `chunkLargeNode` itself: `return blocks[0]` — only the first window is
handed back (`none` models the `undefined` of an empty `blocks`). -/
def chunkLargeNode (opts : ChunkingOptions) (n : SNode)
    (filePath content language : String) (parentSymbol : Option String)
    (now : Nat) : Option CodeBlock :=
  (chunkLargeNodeAll opts n filePath content language parentSymbol now).head?

/-- The `createSemanticBlock`; `Date.now()` is passed in as `now`.  A node
whose token estimate exceeds `maxTokens` is delegated to
`chunkLargeNode`. -/
def createSemanticBlock (opts : ChunkingOptions) (n : SNode)
    (filePath content language : String) (parentSymbol : Option String)
    (now : Nat) : Option CodeBlock :=
  let nodeContent := extractNodeContent content n.startRow n.endRow
  let tokens := estimateTokens nodeContent
  if tokens > opts.maxTokens then
    chunkLargeNode opts n filePath content language parentSymbol now
  else
    some
      { id := generateId filePath n.startRow n.endRow n.type 0
        filePath := filePath
        startLine := n.startRow + 1
        endLine := n.endRow + 1
        content := nodeContent
        contentHash := sha256Hex nodeContent
        blockType := n.type
        language := language
        symbolName := extractSymbolName n
        parentSymbol := parentSymbol
        tokens := tokens
        createdAt := now
        updatedAt := now }

/-- The `createFileBlock` — the whole-file fallback block. -/
def createFileBlock (filePath content language : String) (now : Nat) : CodeBlock :=
  let lines := splitLines content
  { id := generateId filePath 0 lines.length "file" 0
    filePath := filePath
    startLine := 1
    endLine := lines.length
    content := content
    contentHash := sha256Hex content
    blockType := "file"
    language := language
    symbolName := none
    parentSymbol := none
    tokens := estimateTokens content
    createdAt := now
    updatedAt := now }

mutual

/-- The recursive `processNode` closure of `chunkFile`: a semantic node
emits its block (if `createSemanticBlock` yields one) and recurses only
into its non-semantic children, passing its own symbol name as
`parentSymbol`; a non-semantic node recurses into every child with the
inherited `parentSymbol`. -/
def processNode (opts : ChunkingOptions) (filePath content language : String)
    (now : Nat) (parentSymbol : Option String) : SNode → List CodeBlock
  | .mk ty sr er tx children =>
      let n := SNode.mk ty sr er tx children
      if isSemanticBlock language ty then
        (createSemanticBlock opts n filePath content language parentSymbol now).toList ++
          processForest opts filePath content language now true
            (extractSymbolName n) children
      else
        processForest opts filePath content language now false parentSymbol children

/-- Child traversal; with `skipSemantic = true` (inside a semantic node),
semantic children are not recursed into. -/
def processForest (opts : ChunkingOptions) (filePath content language : String)
    (now : Nat) (skipSemantic : Bool) (parentSymbol : Option String) :
    SForest → List CodeBlock
  | .nil => []
  | .cons c cs =>
      (if skipSemantic && isSemanticBlock language c.type then []
       else processNode opts filePath content language now parentSymbol c) ++
        processForest opts filePath content language now skipSemantic parentSymbol cs

end

/-- The `chunkFile`: traverse the tree; if nothing was emitted, fall back to a
single whole-file block. -/
def chunkFile (opts : ChunkingOptions) (filePath content : String) (rootNode : SNode)
    (language : String) (now : Nat) : List CodeBlock :=
  let blocks := processNode opts filePath content language now none rootNode
  if blocks.isEmpty then [createFileBlock filePath content language now] else blocks

/-! ## VectorStore over the transactional store (`src/core/CacheManager.ts`,
second module: class `VectorStore`) and the HashCache (`CacheManager`) -/

/-- A row of the `files` table (`FileMetadata`). -/
structure FileMeta where
  filePath : String
  fileHash : String
  language : String
  sizeBytes : Nat
  lineCount : Nat
  lastIndexed : Nat
  blockCount : Nat
  isDeleted : Bool
deriving Repr, DecidableEq

/-- A row of the `code_fts` full-text table. -/
structure FtsRow where
  blockId : String
  filePath : String
  content : String
  symbolName : String
deriving Repr, DecidableEq

/-- The persistent state of one `VectorStore`: the SQLite tables
`code_blocks`, `code_fts`, `vector_map`, `files`, the HNSW point set with
its tombstones, and the in-memory `nextLabel` counter.  HNSW capacity and
resizing are not modelled (resizing never fails and does not affect
labels). -/
structure Store where
  codeBlocks : List CodeBlock
  ftsRows : List FtsRow
  vectorMap : List (Nat × String)
  files : List FileMeta
  points : List (Nat × List ℚ)
  tombstones : List Nat
  nextLabel : Nat
deriving Repr, DecidableEq

def emptyStore : Store :=
  { codeBlocks := [], ftsRows := [], vectorMap := [], files := [], points := []
    tombstones := [], nextLabel := 0 }

/-- The `code_blocks` rows of a given file. -/
def blocksFor (filePath : String) (s : Store) : List CodeBlock :=
  s.codeBlocks.filter (fun b => b.filePath = filePath)

/-- The `addCodeBlock`: `INSERT OR REPLACE` into `code_blocks` (conflicts on
the `id` primary key and on `UNIQUE(file_path, content_hash)` replace the
conflicting rows) and an insert into `code_fts` (FTS5 tables have no
constraints, so the row is simply appended). -/
def addCodeBlock (s : Store) (b : CodeBlock) : Store :=
  { s with
    codeBlocks :=
      (s.codeBlocks.filter (fun r =>
        ¬(r.id = b.id ∨ (r.filePath = b.filePath ∧ r.contentHash = b.contentHash)))) ++ [b]
    ftsRows := s.ftsRows ++
      [{ blockId := b.id, filePath := b.filePath, content := b.content,
         symbolName := b.symbolName.getD "" }] }

/-- The `addFileMetadata`: `INSERT OR REPLACE` into `files` keyed by
`file_path`. -/
def addFileMetadata (s : Store) (m : FileMeta) : Store :=
  { s with files := (s.files.filter (fun r => r.filePath ≠ m.filePath)) ++ [m] }

/-- The `addVector`: allocate `label := this.nextLabel++`, `INSERT OR REPLACE`
the `vector_map` row (`label` is the primary key and `block_id` is
`UNIQUE`, so conflicting rows are replaced), then add the HNSW point. -/
def addVector (s : Store) (id : String) (v : List ℚ) : Store × Nat :=
  let label := s.nextLabel
  ({ s with
     nextLabel := label + 1
     vectorMap :=
       (s.vectorMap.filter (fun r => ¬(r.1 = label ∨ r.2 = id))) ++ [(label, id)]
     points := s.points ++ [(label, v)] }, label)

/-- The `deleteBlocksByFile`: collect the file's block ids, delete their
`code_fts` rows, tombstone their HNSW labels and delete their
`vector_map` rows, then delete the `code_blocks` rows. -/
def deleteBlocksByFile (s : Store) (filePath : String) : Store :=
  let ids := (s.codeBlocks.filter (fun b => b.filePath = filePath)).map CodeBlock.id
  { s with
    ftsRows := s.ftsRows.filter (fun r => ¬ ids.contains r.blockId)
    tombstones := s.tombstones ++
      ids.filterMap (fun id => (s.vectorMap.find? (fun r => r.2 = id)).map Prod.fst)
    vectorMap := s.vectorMap.filter (fun r => ¬ ids.contains r.2)
    codeBlocks := s.codeBlocks.filter (fun b => ¬ b.filePath = filePath) }

/-- The `initialize`-time recovery of the label counter:
`SELECT MAX(label) FROM vector_map`, then `(max ?? -1) + 1`. -/
def recoverNextLabel (vectorMap : List (Nat × String)) : Nat :=
  match (vectorMap.map Prod.fst).max? with
  | none => 0
  | some m => m + 1

/-- The `FileHashEntry` of the `CacheManager` (`{hash, lastModified, size}`). -/
structure CacheEntry where
  hash : String
  lastModified : Nat
  size : Nat
deriving Repr, DecidableEq

/-- The `CacheManager.getEntry` over the in-memory `Map`. -/
def lookupEntry (cache : List (String × CacheEntry)) (filePath : String) :
    Option CacheEntry :=
  (cache.find? (fun r => r.1 = filePath)).map Prod.snd

/-- The `CacheManager.setHash`: `Map.set` — update in place or append. -/
def setEntry (cache : List (String × CacheEntry)) (filePath : String)
    (e : CacheEntry) : List (String × CacheEntry) :=
  if cache.any (fun r => r.1 = filePath) then
    cache.map (fun r => if r.1 = filePath then (filePath, e) else r)
  else cache ++ [(filePath, e)]

/-! ## BatchProcessor (`src/scanner/BatchProcessor.ts`), per-file protocol -/

/-- Result of `CodeParser.parseFile`. -/
structure Parsed where
  blocks : List CodeBlock
  language : String
  sizeBytes : Nat
  lineCount : Nat
deriving Repr, DecidableEq

/-- Outcomes of the external effects of one `processFile` run: the file
read, `fs.stat`, the parser (which throws on unsupported languages and
read errors), and the embedder batch call.  `none`/`false` model a thrown
error, which the surrounding `try`/`catch` turns into a logged skip. -/
structure FileEnv where
  readResult : Option String
  statResult : Option (Nat × Nat)
  parseResult : Option Parsed
  embedOk : Bool
  embedVecs : List (List ℚ)
  now : Nat
deriving Repr, DecidableEq

/-- The mutable state touched by `processFile`: the store, the hash cache
and the number of `embedBatch` calls and processed files. -/
structure ProcSys where
  store : Store
  cache : List (String × CacheEntry)
  embedBatchCalls : Nat
  filesProcessed : Nat
deriving Repr, DecidableEq

/-- The `processFile`'s observable outcome: the final state plus the store
snapshots committed by each executed write transaction (what a concurrent
reader of the store can observe). -/
structure ProcOut where
  sys : ProcSys
  commits : List Store
deriving Repr, DecidableEq

/-- The second transaction: for each block (with its embedding)
`addCodeBlock` and `addVector`, then `addFileMetadata`. -/
def insertNewBlocks (s : Store) : List CodeBlock → List (List ℚ) → Store
  | [], _ => s
  | b :: bs, [] => insertNewBlocks (addVector (addCodeBlock s b) b.id []).1 bs []
  | b :: bs, v :: vs => insertNewBlocks (addVector (addCodeBlock s b) b.id v).1 bs vs

/-- The per-file protocol `processFile` of `BatchProcessor.processFiles`
(`filePath` is the workspace-relative path; `path.relative` is applied by
the caller).  Sequence: read the file, hash it, `fs.stat`, consult the
hash cache (`cached && cached.hash === fileHash` skips the file), commit a
first transaction that deletes the file's existing blocks, parse, embed
all block contents in one `embedBatch` call, commit a second transaction
inserting the new blocks, their vectors and the file metadata, and
finally update the hash cache.  Any thrown error is caught: the file is
skipped with whatever state was already committed. -/
def processFileModel (filePath : String) (env : FileEnv) (s : ProcSys) : ProcOut :=
  match env.readResult with
  | none => { sys := s, commits := [] }
  | some content =>
    let fileHash := sha256Hex content
    match env.statResult with
    | none => { sys := s, commits := [] }
    | some stat =>
      let skip : Bool :=
        match lookupEntry s.cache filePath with
        | some cached => cached.hash == fileHash
        | none => false
      if skip then
        { sys := { s with filesProcessed := s.filesProcessed + 1 }, commits := [] }
      else
        let deleted := deleteBlocksByFile s.store filePath
        match env.parseResult with
        | none => { sys := { s with store := deleted }, commits := [deleted] }
        | some parsed =>
          let s1 : ProcSys :=
            { s with store := deleted, embedBatchCalls := s.embedBatchCalls + 1 }
          if env.embedOk then
            let inserted :=
              addFileMetadata (insertNewBlocks deleted parsed.blocks env.embedVecs)
                { filePath := filePath, fileHash := fileHash,
                  language := parsed.language, sizeBytes := parsed.sizeBytes,
                  lineCount := parsed.lineCount, lastIndexed := env.now,
                  blockCount := parsed.blocks.length, isDeleted := false }
            { sys :=
                { s1 with
                  store := inserted
                  cache := setEntry s1.cache filePath
                    { hash := fileHash, lastModified := stat.2, size := stat.1 }
                  filesProcessed := s1.filesProcessed + 1 }
              commits := [deleted, inserted] }
          else
            { sys := s1, commits := [deleted] }

/-! ## VectorStore label lifecycle (for the label-reuse analysis) -/

/-- One store-level operation in the life of an index: inserting a
catalog row, inserting a vector, deleting a file's blocks, or a process
restart (which re-runs `initialize`'s `MAX(label)+1` recovery). -/
inductive VOp where
  | addBlock (b : CodeBlock)
  | addVec (id : String) (v : List ℚ)
  | deleteFile (f : String)
  | restart
deriving Repr, DecidableEq

/-- Run a list of operations, returning the final store and the labels
handed out by the `addVector` calls, in order. -/
def runOps : List VOp → Store → Store × List Nat
  | [], s => (s, [])
  | .addBlock b :: rest, s => runOps rest (addCodeBlock s b)
  | .addVec id v :: rest, s =>
      let r := addVector s id v
      let out := runOps rest r.1
      (out.1, r.2 :: out.2)
  | .deleteFile f :: rest, s => runOps rest (deleteBlocksByFile s f)
  | .restart :: rest, s =>
      runOps rest { s with nextLabel := recoverNextLabel s.vectorMap }

/-! ## QueryExpander (`src/search/QueryExpander.ts`) -/

def programmingSynonyms : List (String × List String) :=
  [("auth", ["authentication", "authorize", "login", "signin", "credential"]),
   ("fetch", ["get", "retrieve", "load", "request", "api"]),
   ("error", ["exception", "failure", "problem", "issue"]),
   ("user", ["account", "profile", "member", "person"]),
   ("data", ["info", "information", "record", "entry"]),
   ("create", ["add", "new", "insert", "make"]),
   ("update", ["edit", "modify", "change", "patch"]),
   ("delete", ["remove", "destroy", "erase", "clear"]),
   ("find", ["search", "locate", "lookup", "query"]),
   ("list", ["array", "collection", "items", "elements"]),
   ("render", ["display", "show", "view", "draw"]),
   ("connect", ["join", "link", "attach", "bind"]),
   ("send", ["transmit", "post", "push", "emit"]),
   ("receive", ["get", "accept", "obtain", "collect"])]

def codePatterns : List (String × List String) :=
  [("error handler",
    ["try catch", "try/catch", "error handling", "exception handling", "catch block"]),
   ("async function", ["promise", "async/await", "callback", "future", "coroutine"]),
   ("http request", ["fetch", "axios", "xhr", "ajax", "api call", "http client"]),
   ("component", ["react component", "vue component", "element", "widget", "view"]),
   ("hook", ["useeffect", "usestate", "custom hook", "lifecycle"]),
   ("middleware", ["interceptor", "filter", "handler", "plugin"]),
   ("router", ["routing", "navigation", "routes", "paths", "url handling"])]

/-- Insertion into a JavaScript `Set` (insertion-ordered, deduplicating). -/
def setAdd (acc : List String) (x : String) : List String :=
  if acc.contains x then acc else acc ++ [x]

def setAddAll (acc : List String) (xs : List String) : List String :=
  xs.foldl setAdd acc

/-- The `char === char.toUpperCase()` — true for uppercase letters and for
every character without case (digits, punctuation). -/
def jsIsUpperLike (c : Char) : Bool :=
  c = c.toUpper

/-- The `splitCamelCase`'s character loop. -/
def splitCamelGo : List Char → List (List Char) → List Char → List (List Char)
  | [], words, current => if current ≠ [] then words ++ [current] else words
  | c :: rest, words, current =>
      if jsIsUpperLike c ∧ current ≠ [] then splitCamelGo rest (words ++ [current]) [c]
      else splitCamelGo rest words (current ++ [c])

def splitCamelCase (text : String) : List String :=
  (splitCamelGo text.data [] []).map (fun l => String.mk l)

/-- The `text.split(/[_\s-]+/).filter(w => w.length > 0)`. -/
def splitSnakeCase (text : String) : List String :=
  ((splitPredAux (fun c => c = '_' || c.isWhitespace || c = '-') text.data).map
    (fun l => String.mk l)).filter (fun w => w ≠ "")

def expandProgrammingTerms (term : String) : List String :=
  let lowerTerm := jsToLower term
  programmingSynonyms.foldl
    (fun acc kv =>
      if jsIncludes lowerTerm kv.1 || kv.2.any (fun s => jsIncludes lowerTerm s) then
        acc ++ kv.1 :: kv.2
      else acc) []

def getSynonyms (term : String) : List String :=
  let lowerTerm := jsToLower term
  programmingSynonyms.foldl
    (fun acc kv =>
      if kv.2.contains lowerTerm || kv.1 = lowerTerm then acc ++ kv.2 else acc) []

def matchCodePatterns (query : String) : List String :=
  let lowerQuery := jsToLower query
  codePatterns.foldl
    (fun acc kv => if jsIncludes lowerQuery kv.1 then acc ++ kv.1 :: kv.2 else acc) []

structure QueryExpansionResult where
  original : String
  expanded : List String
deriving Repr, DecidableEq

/-- The `QueryExpander.expand`: a `Set` seeded with the lowercased query,
extended with camelCase splits, programming-term expansions, synonyms,
code-pattern variants and snake/kebab splits. -/
def expandQueryModel (query : String) : QueryExpansionResult :=
  let e0 := [jsToLower query]
  let e1 := setAddAll e0 ((splitCamelCase query).map jsToLower)
  let e2 := setAddAll e1 (expandProgrammingTerms query)
  let e3 := setAddAll e2 (getSynonyms query)
  let e4 := setAddAll e3 (matchCodePatterns query)
  let e5 := setAddAll e4 ((splitSnakeCase query).map jsToLower)
  { original := query, expanded := e5 }

/-! ## Search result pipeline (`src/search/HybridSearch.ts`,
`BoostCalculator.ts`, `ReRanker.ts`).  Scores are exact rationals. -/

structure SearchResult where
  blockId : String
  filePath : String
  content : String
  startLine : Nat
  endLine : Nat
  semanticScore : ℚ
  keywordScore : ℚ
  boostScore : ℚ
  finalScore : ℚ
  language : String
  blockType : String
  symbolName : Option String
  parentSymbol : Option String
deriving Repr, DecidableEq

structure HybridSearchOptions where
  limit : Nat
  language : Option String := none
  blockType : Option String := none
  minScore : Option ℚ := none
  semanticOnly : Bool := false
  keywordOnly : Bool := false
  semanticWeight : Option ℚ := none
  keywordWeight : Option ℚ := none
  rerank : Option Bool := none
deriving Repr

/-! ### BoostCalculator.  `HybridSearch` constructs it fresh and never
calls `setLanguageDistribution`/`setRecentFiles`, so those two inputs are
parameters (empty in the pipeline). -/

def symbolNameBoost (r : SearchResult) (query : String) : ℚ :=
  match r.symbolName with
  | none => 1
  | some sym =>
      let ql := jsToLower query
      let sl := jsToLower sym
      if sl = ql then 3/2
      else if jsIncludes sl ql then 13/10
      else if jsIncludes ql sl then 6/5
      else 1

def filePathBoost (r : SearchResult) (query : String) : ℚ :=
  let ql := jsToLower query
  let fp := jsToLower r.filePath
  if jsIncludes fp ql then 13/10
  else
    let fileName :=
      (((splitPredAux (fun c => c = '/') fp.data).map (fun l => String.mk l)).getLast?).getD ""
    if jsIncludes fileName ql then 6/5 else 1

def recencyBoost (recentFiles : List String) (r : SearchResult) : ℚ :=
  if recentFiles.contains r.filePath then 5/4 else 1

def blockTypeBoost (r : SearchResult) : ℚ :=
  if r.blockType = "function_declaration" then 13/10
  else if r.blockType = "function_expression" then 13/10
  else if r.blockType = "arrow_function" then 13/10
  else if r.blockType = "method_definition" then 13/10
  else if r.blockType = "function_definition" then 13/10
  else if r.blockType = "class_declaration" then 6/5
  else if r.blockType = "class_expression" then 6/5
  else if r.blockType = "class_definition" then 6/5
  else if r.blockType = "interface_declaration" then 23/20
  else if r.blockType = "type_alias_declaration" then 23/20
  else if r.blockType = "enum_declaration" then 11/10
  else if r.blockType = "decorated_definition" then 5/4
  else if r.blockType = "file" then 19/20
  else 1

def languageBoost (dist : List (String × Nat)) (r : SearchResult) : ℚ :=
  if dist = [] then 1
  else
    let langCount := (((dist.find? (fun kv => kv.1 = r.language)).map Prod.snd).getD 0 : ℚ)
    let totalFiles := ((dist.map Prod.snd).sum : ℚ)
    let percentage := langCount / totalFiles
    if percentage > 1/2 then 11/10
    else if percentage > 1/5 then 21/20
    else if percentage < 1/20 then 19/20
    else 1

def semanticKeywordBalance (r : SearchResult) : ℚ :=
  if r.semanticScore > 7/10 ∧ r.keywordScore > 7/10 then 6/5
  else if r.semanticScore > 4/5 ∨ r.keywordScore > 4/5 then 11/10
  else if r.semanticScore < 3/10 ∧ r.keywordScore < 3/10 then 4/5
  else 1

/-- The `BoostCalculator.calculateBoost`. -/
def calculateBoost (dist : List (String × Nat)) (recentFiles : List String)
    (r : SearchResult) (query : String) : ℚ :=
  symbolNameBoost r query * filePathBoost r query * recencyBoost recentFiles r *
    blockTypeBoost r * languageBoost dist r * semanticKeywordBalance r

/-! ### ReRanker -/

/-- The `countWordMatches`: query words longer than 2 characters that occur in
the content. -/
def countWordMatches (query content : String) : Nat :=
  ((wsWords query).filter (fun w => w.length > 2)).countP
    (fun w => jsIncludes content w)

def calculateRerankScore (r : SearchResult) (query : String) : ℚ :=
  let ql := jsToLower query
  let cl := jsToLower r.content
  let sl := jsToLower (r.symbolName.getD "")
  let s1 :=
    if sl = ql then r.finalScore * (3/2)
    else if jsIncludes sl ql then r.finalScore * (6/5)
    else r.finalScore
  let s2 := if jsIncludes cl ql then s1 * (11/10) else s1
  let wm := countWordMatches ql cl
  let s3 := if wm > 0 then s2 * (1 + wm * (1/20)) else s2
  let s4 := if r.semanticScore > 4/5 ∧ r.keywordScore > 1/2 then s3 * (23/20) else s3
  let s5 :=
    if r.blockType = "function_declaration" ∨ r.blockType = "method_definition" ∨
       r.blockType = "function_definition" then s4 * (21/20)
    else s4
  let s6 := if (splitLines r.content).length > 50 then s5 * (19/20) else s5
  min s6 1

/-- A stable descending sort by `f` — the model of
`array.sort((a, b) => f(b) - f(a))`. -/
def sortByDesc {α : Type} (f : α → ℚ) (l : List α) : List α :=
  List.insertionSort (fun a b => f b ≤ f a) l

/-- The `ReRanker.rerank`: identity on lists of at most one element; otherwise
score, sort descending by rerank score, and write the rerank score into
`finalScore`. -/
def rerankModel (results : List SearchResult) (query : String) : List SearchResult :=
  if results.length ≤ 1 then results
  else
    let scored := results.map (fun r => (r, calculateRerankScore r query))
    let reranked := sortByDesc Prod.snd scored
    reranked.map (fun p => { p.1 with finalScore := p.2 })

/-! ### HybridSearch -/

/-- JavaScript's `\w` character class. -/
def jsWordChar (c : Char) : Bool :=
  c.isAlphanum || c = '_'

/-- The sanitisation of `VectorStore.fullTextSearch`: drop non-word
non-space characters, split on whitespace, join with ` OR `. -/
def sanitizeFts (query : String) : String :=
  joinSep " OR "
    (wsWords (String.mk (query.data.map
      (fun c => if jsWordChar c || c.isWhitespace then c else ' '))))

/-- Wrap to a signed 32-bit integer (`hash & hash` / `<<` coercion). -/
def toInt32 (n : Int) : Int :=
  ((n + 2147483648) % 4294967296) - 2147483648

/-- The character loop of `HybridSearch.hashQuery`. -/
def hashQueryInt (query : String) : Int :=
  query.data.foldl (fun h c => toInt32 (toInt32 (h * 32) - h + c.toNat)) 0

def natToBase36Aux : Nat → Nat → List Char
  | 0, _ => []
  | fuel + 1, n => if n = 0 then [] else natToBase36Aux fuel (n / 36) ++ [hexDigit (n % 36)]

def natToBase36 (n : Nat) : String :=
  if n = 0 then "0" else String.mk (natToBase36Aux n n)

/-- The `hashQuery`: the 32-bit string hash rendered via `toString(36)`. -/
def hashQuery (query : String) : String :=
  let h := hashQueryInt query
  if h < 0 then "-" ++ natToBase36 h.natAbs else natToBase36 h.toNat

/-- A `search_stats` row (`SearchStats`) as bound into the
`INSERT OR REPLACE`.  `avgScore = none` models a `NaN` average — JavaScript
produces `NaN` from the `0/0` average of an empty result list, and SQLite
binds `NaN` as `NULL`. -/
structure SearchStats where
  queryHash : String
  query : String
  resultCount : Nat
  avgScore : Option ℚ
  executionTimeMs : Int
  timestamp : Nat
deriving Repr, DecidableEq

/-- The collaborators of `HybridSearch.search`: the embedder, the HNSW
index, the label map and catalog, the FTS engine (applied to the
sanitised match expression), the configured weights and rerank default,
and the wall clock (the two adjacent `Date.now()` calls in the stats
record are modelled by the single `endTime`). -/
structure SearchEnv where
  embed : String → List ℚ
  knn : List ℚ → Nat → List (Nat × ℚ)
  labelToBlockId : Nat → Option String
  getCodeBlock : String → Option CodeBlock
  ftsMatch : String → Nat → List (String × ℚ)
  cfgSemanticWeight : ℚ
  cfgKeywordWeight : ℚ
  cfgRerank : Bool
  startTime : Nat
  endTime : Nat

def mkSemResult (b : CodeBlock) (dist : ℚ) : SearchResult :=
  { blockId := b.id, filePath := b.filePath, content := b.content,
    startLine := b.startLine, endLine := b.endLine,
    semanticScore := 1 - dist, keywordScore := 0, boostScore := 1,
    finalScore := 1 - dist, language := b.language, blockType := b.blockType,
    symbolName := b.symbolName, parentSymbol := b.parentSymbol }

def mkKwResult (b : CodeBlock) (normalizedScore : ℚ) : SearchResult :=
  { blockId := b.id, filePath := b.filePath, content := b.content,
    startLine := b.startLine, endLine := b.endLine,
    semanticScore := 0, keywordScore := normalizedScore, boostScore := 1,
    finalScore := normalizedScore, language := b.language, blockType := b.blockType,
    symbolName := b.symbolName, parentSymbol := b.parentSymbol }

/-- The `semanticSearch`: embed the query, take `2·limit` nearest neighbours,
translate labels through the mapping (labels without a mapping or without
a catalog row are skipped), score `1 − distance`. -/
def semanticSearchModel (env : SearchEnv) (query : String) (limit : Nat) :
    List SearchResult :=
  (env.knn (env.embed query) (limit * 2)).filterMap
    (fun lr =>
      match env.labelToBlockId lr.1 with
      | none => none
      | some bid => (env.getCodeBlock bid).map (fun b => mkSemResult b lr.2))

/-- The `fullTextSearch`: sanitise, return `[]` on an empty expression. -/
def fullTextSearchModel (env : SearchEnv) (query : String) (limit : Nat) :
    List (String × ℚ) :=
  let sanitized := sanitizeFts query
  if sanitized = "" then [] else env.ftsMatch sanitized limit

/-- The `keywordSearch`: FTS over `2·limit`, normalise BM25 by
`min(score / 10, 1)`, join through the catalog. -/
def keywordSearchModel (env : SearchEnv) (query : String) (limit : Nat) :
    List SearchResult :=
  (fullTextSearchModel env query (limit * 2)).filterMap
    (fun r => (env.getCodeBlock r.1).map (fun b => mkKwResult b (min (r.2 / 10) 1)))

def mapGet (m : List (String × SearchResult)) (k : String) : Option SearchResult :=
  (m.find? (fun p => p.1 = k)).map Prod.snd

/-- The `Map.set` over the insertion-ordered association list. -/
def mapSet (m : List (String × SearchResult)) (k : String) (v : SearchResult) :
    List (String × SearchResult) :=
  if m.any (fun p => p.1 = k) then
    m.map (fun p => if p.1 = k then (k, v) else p)
  else m ++ [(k, v)]

/-- First `mergeResults` loop (semantic candidates). -/
def mergeSemStep (ws wk : ℚ) (m : List (String × SearchResult)) (r : SearchResult) :
    List (String × SearchResult) :=
  match mapGet m r.blockId with
  | some ex =>
      let sem := max ex.semanticScore r.semanticScore
      mapSet m r.blockId
        { ex with semanticScore := sem,
                  finalScore := (sem * ws + ex.keywordScore * wk) / (ws + wk) }
  | none => mapSet m r.blockId { r with finalScore := r.semanticScore * ws / (ws + wk) }

/-- Second `mergeResults` loop (keyword candidates). -/
def mergeKwStep (ws wk : ℚ) (m : List (String × SearchResult)) (r : SearchResult) :
    List (String × SearchResult) :=
  match mapGet m r.blockId with
  | some ex =>
      let kw := max ex.keywordScore r.keywordScore
      mapSet m r.blockId
        { ex with keywordScore := kw,
                  finalScore := (ex.semanticScore * ws + kw * wk) / (ws + wk) }
  | none => mapSet m r.blockId { r with finalScore := r.keywordScore * wk / (ws + wk) }

/-- The `mergeResults`: union on `block_id` via the `Map`, then
`Array.from(merged.values())`. -/
def mergeResultsModel (semanticResults keywordResults : List SearchResult)
    (ws wk : ℚ) : List SearchResult :=
  ((keywordResults.foldl (mergeKwStep ws wk)
      (semanticResults.foldl (mergeSemStep ws wk) []))).map Prod.snd

/-- The `applyFilters`; note the JavaScript truthiness tests: an empty-string
filter and `minScore = 0` are skipped. -/
def applyFiltersModel (results : List SearchResult) (opts : HybridSearchOptions) :
    List SearchResult :=
  let f1 :=
    match opts.language with
    | some l =>
        if l ≠ "" then results.filter (fun r => jsToLower r.language = jsToLower l)
        else results
    | none => results
  let f2 :=
    match opts.blockType with
    | some t =>
        if t ≠ "" then f1.filter (fun r => jsToLower r.blockType = jsToLower t)
        else f1
    | none => f1
  match opts.minScore with
  | some m => if m ≠ 0 then f2.filter (fun r => m ≤ r.finalScore) else f2
  | none => f2

/-- The `SearchStat` row handed to `recordSearchStats`:
`limited.reduce((sum, r) => sum + r.finalScore, 0) / limited.length` is
`NaN` (modelled as `none`) exactly when `limited` is empty. -/
def searchStatOf (env : SearchEnv) (query : String) (limited : List SearchResult) :
    SearchStats :=
  { queryHash := hashQuery query, query := query, resultCount := limited.length,
    avgScore :=
      if limited.isEmpty then none
      else some ((limited.map SearchResult.finalScore).sum / (limited.length : ℚ)),
    executionTimeMs := (env.endTime : Int) - (env.startTime : Int),
    timestamp := env.endTime }

/-- Does the `INSERT OR REPLACE INTO search_stats` abort on this row?  The
`avg_score` column is declared `REAL NOT NULL`, so binding the `NULL` that
SQLite makes of a `NaN` average raises
`NOT NULL constraint failed: search_stats.avg_score`. -/
def statInsertAborts (row : SearchStats) : Bool :=
  row.avgScore.isNone

/-- The observable outcome of `HybridSearch.search`.  `results` is the
list the call returns on normal completion; `recordedStats` are the rows
handed to `recordSearchStats`; `thrown` is set when that stats insert
aborts (`statInsertAborts`), in which case the exception propagates out of
`search()` — nothing is returned and the handed row is not persisted.
`ftsQueries`/`embedQueries` log the query strings passed to
`fullTextSearch` and to `embedder.embed` (both before the stats stage). -/
structure SearchOut where
  results : List SearchResult
  thrown : Bool
  recordedStats : List SearchStats
  ftsQueries : List String
  embedQueries : List String

/-- The `HybridSearch.search`: run the enabled channels, merge, boost
(`BoostCalculator` with its never-populated distribution and recent-file
sets), filter, sort descending, truncate to `limit`; then either rerank
and return (recording nothing), or hand one `SearchStat` row to
`recordSearchStats` and return — unless that insert aborts on a `NULL`
average (empty result list), in which case the call throws. -/
def searchModel (env : SearchEnv) (query : String) (opts : HybridSearchOptions) :
    SearchOut :=
  let ws := opts.semanticWeight.getD env.cfgSemanticWeight
  let wk := opts.keywordWeight.getD env.cfgKeywordWeight
  let semanticResults :=
    if !opts.keywordOnly then semanticSearchModel env query opts.limit else []
  let keywordResults :=
    if !opts.semanticOnly then keywordSearchModel env query opts.limit else []
  let merged := mergeResultsModel semanticResults keywordResults ws wk
  let boosted := merged.map
    (fun r =>
      let b := calculateBoost [] [] r query
      { r with boostScore := b, finalScore := r.finalScore * b })
  let filtered := applyFiltersModel boosted opts
  let sorted := sortByDesc SearchResult.finalScore filtered
  let limited := sorted.take opts.limit
  let ftsQ := if !opts.semanticOnly then [query] else []
  let embedQ := if !opts.keywordOnly then [query] else []
  if opts.rerank.getD env.cfgRerank then
    { results := rerankModel limited query, thrown := false, recordedStats := [],
      ftsQueries := ftsQ, embedQueries := embedQ }
  else
    { results := limited, thrown := statInsertAborts (searchStatOf env query limited),
      recordedStats := [searchStatOf env query limited],
      ftsQueries := ftsQ, embedQueries := embedQ }

/-! ## DirectoryScanner (`DirectoryScanner.ts`).

`fs.readdir(dir, { withFileTypes: true })` classifies entries without
following symbolic links (`lstat`/`d_type` semantics): a symbolic link —
even one whose target is a directory — reports `isSymbolicLink() = true`
and `isDirectory() = isFile() = false`.  The entry kinds below are
therefore mutually exclusive. -/

inductive DKind where
  | dir
  | file
  | symlink
  | other
deriving Repr, DecidableEq

mutual

inductive FSTree where
  | node (name : String) (kind : DKind) (children : FSForest)

inductive FSForest where
  | nil
  | cons (head : FSTree) (tail : FSForest)

end

structure ScanOpts where
  followSymlinks : Option Bool := none
  includePatterns : Option (List String) := none
  maxDepth : Option Nat := none

/-- The `new DirectoryScanner(...)` + `scan(root, {})`: all option fields are
absent (`undefined`). -/
def defaultScanOpts : ScanOpts := {}

def codeExtensions : List String :=
  [".ts", ".tsx", ".js", ".jsx", ".mjs", ".cjs",
   ".py", ".java", ".go", ".rs", ".rb", ".php",
   ".cs", ".kt", ".swift", ".html", ".css", ".scss",
   ".sql", ".md", ".json", ".yaml", ".yml", ".xml"]

/-- The `path.basename`-style last path segment. -/
def lastSegment (p : String) : List Char :=
  ((splitPredAux (fun c => c = '/') p.data).getLast?).getD []

/-- The `path.extname(filePath).toLowerCase()`: the suffix of the basename
from its last `.` (empty when there is no dot or the basename starts with
its only dot). -/
def extnameLower (p : String) : String :=
  let base := lastSegment p
  match base.reverse.findIdx? (fun c => c = '.') with
  | none => ""
  | some k =>
      let i := base.length - 1 - k
      if i = 0 then "" else jsToLower (String.mk (base.drop i))

/-- The `shouldIncludeFile`: known code extension, then the optional
`includePatterns` check. -/
def shouldIncludeFile (opts : ScanOpts) (filePath : String) : Bool :=
  if !codeExtensions.contains (extnameLower filePath) then false
  else
    match opts.includePatterns with
    | some pats =>
        pats.any (fun pat =>
          jsIncludes filePath pat || jsIncludes (String.mk (lastSegment filePath)) pat)
    | none => true

/-- Accumulated scan output; `descended` logs every entry the scanner
recursed into (relative path and its `Dirent` kind). -/
structure ScanAcc where
  files : List String
  directories : List String
  skipped : List String
  descended : List (String × DKind)
deriving Repr, DecidableEq

def emptyAcc : ScanAcc :=
  { files := [], directories := [], skipped := [], descended := [] }

def accAppend (a b : ScanAcc) : ScanAcc :=
  { files := a.files ++ b.files, directories := a.directories ++ b.directories,
    skipped := a.skipped ++ b.skipped, descended := a.descended ++ b.descended }

/-- The `path.relative(root, path.join(dir, name))` along the walk. -/
def childRel (relPre name : String) : String :=
  if relPre = "" then name else relPre ++ "/" ++ name

mutual

/-- Handling of one directory entry inside `scanDirectory`'s loop: ignored
entries are recorded as skipped; a directory entry is pushed and recursed
into when `options.followSymlinks !== false || !entry.isSymbolicLink()`;
a file entry is included or skipped by `shouldIncludeFile`; anything else
(symbolic links, sockets, ...) is passed over silently. -/
def scanEntry (ign : String → Bool) (opts : ScanOpts) (maxDepth : Nat) :
    FSTree → String → Nat → ScanAcc
  | .node name kind cs, relPre, depth =>
      let rel := childRel relPre name
      if ign rel then { emptyAcc with skipped := [rel] }
      else if kind == DKind.dir then
        if !(opts.followSymlinks == some false) || !(kind == DKind.symlink) then
          accAppend { emptyAcc with directories := [rel], descended := [(rel, kind)] }
            (scanForest ign opts maxDepth cs rel (depth + 1))
        else emptyAcc
      else if kind == DKind.file then
        if shouldIncludeFile opts rel then { emptyAcc with files := [rel] }
        else { emptyAcc with skipped := [rel] }
      else emptyAcc

/-- The `scanDirectory` on a directory's entry list; the `currentDepth >
maxDepth` cut-off guards the whole listing. -/
def scanForest (ign : String → Bool) (opts : ScanOpts) (maxDepth : Nat) :
    FSForest → String → Nat → ScanAcc
  | f, relPre, depth =>
      if depth > maxDepth then emptyAcc
      else
        match f with
        | .nil => emptyAcc
        | .cons e rest =>
            accAppend (scanEntry ign opts maxDepth e relPre depth)
              (scanForest ign opts maxDepth rest relPre depth)

end

/-- The `DirectoryScanner.scan(rootPath, options)`: `maxDepth ?? 50`, then walk
the root's entries at depth 0 (the `ign` parameter is the compiled ignore
matcher, an external collaborator). -/
def scanModel (rootChildren : FSForest) (ign : String → Bool) (opts : ScanOpts) :
    ScanAcc :=
  scanForest ign opts (opts.maxDepth.getD 50) rootChildren "" 0

/-! ## Claim analysis: concrete fixtures -/

/-- A two-line TypeScript function node (rows 0–1) with its identifier
child, as tree-sitter reports it for `c6Content`. -/
def c6Node : SNode :=
  SNode.mk "function_declaration" 0 1 "" (forestOfList [SNode.mk "identifier" 0 0 "f" .nil])

def c6Root : SNode := SNode.mk "program" 0 1 "" (forestOfList [c6Node])

def c6Content : String := "function f() \x7b\n\x7d"

/-- The block-identity scheme exactly as the specification words it: first
16 hex characters of SHA-256 over the Block's own attributes `file_path`,
`start_line`, `end_line` (its 1-based inclusive line attributes),
`block_type` and `chunk_index`. -/
def specBlockId (b : CodeBlock) (chunkIndex : Nat) : String :=
  ⟨(sha256Hex (b.filePath ++ ":" ++ toString b.startLine ++ ":" ++
      toString b.endLine ++ ":" ++ b.blockType ++ ":" ++ toString chunkIndex)).data.take 16⟩

/-- Chunking options with tiny budgets (`targetTokens 2`, `maxTokens 3`,
`overlapTokens 1`), as configurable through the constructor. -/
def c2Opts : ChunkingOptions := { targetTokens := 2, maxTokens := 3, overlapTokens := 1 }

/-- A four-line function node whose token estimate (6) exceeds
`maxTokens = 3`. -/
def c2Node : SNode :=
  SNode.mk "function_declaration" 0 3 "" (forestOfList [SNode.mk "identifier" 0 0 "big" .nil])

def c2Root : SNode := SNode.mk "program" 0 3 "" (forestOfList [c2Node])

def c2Content : String := "a b\nc d\ne f\ng h"

/-- An environment whose file read succeeds with bytes `abc` and whose
`fs.stat` reports mtime 10; parsing and embedding are never reached. -/
def c5Env : FileEnv :=
  { readResult := some "abc", statResult := some (3, 10), parseResult := none,
    embedOk := false, embedVecs := [], now := 99 }

/-- A system whose hash cache already holds SHA-256("abc") for `a.ts`,
recorded with mtime 5. -/
def c5Sys : ProcSys :=
  { store := emptyStore,
    cache := [("a.ts",
      { hash := "ba7816bf8f01cfea414140de5dae2223b00361a396177a9cb410ff61f20015ad",
        lastModified := 5, size := 3 })],
    embedBatchCalls := 0, filesProcessed := 0 }

def c1OldBlock : CodeBlock :=
  { id := "oldblock0", filePath := "a.ts", startLine := 1, endLine := 2,
    content := "old", contentHash := "oldhash", blockType := "file",
    language := "typescript", symbolName := none, parentSymbol := none,
    tokens := 1, createdAt := 0, updatedAt := 0 }

def c1Sys : ProcSys :=
  { store := { emptyStore with codeBlocks := [c1OldBlock] }, cache := [],
    embedBatchCalls := 0, filesProcessed := 0 }

/-- Read and stat succeed, but the parser throws (e.g. a parse failure)
after the delete transaction has committed. -/
def c1Env : FileEnv :=
  { readResult := some "new text", statResult := some (8, 1), parseResult := none,
    embedOk := true, embedVecs := [], now := 0 }

def c8BlockA : CodeBlock := { c1OldBlock with id := "ba", filePath := "f.ts" }

def c8BlockB : CodeBlock := { c1OldBlock with id := "bb", filePath := "g.ts" }

/-- Two files are indexed (labels 0 and 1), the second is deleted, the
process restarts, and a third vector is inserted. -/
def c8Ops : List VOp :=
  [VOp.addBlock c8BlockA, VOp.addVec "ba" [], VOp.addBlock c8BlockB,
   VOp.addVec "bb" [], VOp.deleteFile "g.ts", VOp.restart, VOp.addVec "bc" []]

def c8WitnessOps : List VOp := [VOp.addVec "x" [], VOp.addVec "y" []]

/-! Search pipeline fixtures -/

def plainSearchEnv : SearchEnv :=
  { embed := fun _ => [], knn := fun _ _ => [], labelToBlockId := fun _ => none,
    getCodeBlock := fun _ => none, ftsMatch := fun _ _ => [],
    cfgSemanticWeight := 7/10, cfgKeywordWeight := 3/10, cfgRerank := true,
    startTime := 0, endTime := 0 }

def kwBlock : CodeBlock :=
  { id := "blk1", filePath := "w.ts", startLine := 1, endLine := 2,
    content := "hello world", contentHash := "", blockType := "function_declaration",
    language := "typescript", symbolName := some "hello", parentSymbol := none,
    tokens := 2, createdAt := 0, updatedAt := 0 }

/-- A search environment whose FTS engine returns one hit (`bm25` scores
from SQLite are negative for relevant rows) resolved by the catalog. -/
def kwSearchEnv : SearchEnv :=
  { plainSearchEnv with
    getCodeBlock := fun id => if id = "blk1" then some kwBlock else none
    ftsMatch := fun _ _ => [("blk1", -2)]
    startTime := 3, endTime := 8 }

/-- Both channels disabled, re-ranking explicitly off. -/
def c7Opts : HybridSearchOptions :=
  { limit := 5, semanticOnly := true, keywordOnly := true, rerank := some false }

/-- Two `code_blocks` rows conflict when `INSERT OR REPLACE` would replace
one by the other: equal `id` (primary key) or equal
`(file_path, content_hash)` (unique constraint). -/
def blockConflict (r b : CodeBlock) : Prop :=
  r.id = b.id ∨ (r.filePath = b.filePath ∧ r.contentHash = b.contentHash)

instance (r b : CodeBlock) : Decidable (blockConflict r b) := by
  unfold blockConflict; exact inferInstance

def c1NewB1 : CodeBlock :=
  { c1OldBlock with id := "newb1", contentHash := "h1" }

def c1NewB2 : CodeBlock :=
  { c1OldBlock with id := "newb2", contentHash := "h2" }

/-- A fully successful run over `a.ts`: parse yields two blocks, the
embedder returns two vectors. -/
def c1SuccessEnv : FileEnv :=
  { readResult := some "new text", statResult := some (8, 1),
    parseResult := some
      { blocks := [c1NewB1, c1NewB2], language := "typescript",
        sizeBytes := 8, lineCount := 1 },
    embedOk := true, embedVecs := [[1], [2]], now := 7 }

/-- Invariant of the fusion `Map`: keys are distinct and every value's
`blockId` equals its key. -/
def MapKeyed (m : List (String × SearchResult)) : Prop :=
  (m.map Prod.fst).Nodup ∧ ∀ p ∈ m, p.2.blockId = p.1

/-! ## Claim analysis: theorems -/

example : sha256Hex "abc" =
    "ba7816bf8f01cfea414140de5dae2223b00361a396177a9cb410ff61f20015ad" := by
  decide


/-- Claim C2 (code bug).  Evaluating the chunker at a node whose token
estimate (6) exceeds `maxTokens` (3): the `blocks` array built inside
`chunkLargeNode` holds all 4 line windows, but `chunkFile` emits only
`blocks[0]` — every other sub-block is dropped, contradicting the
specified splitting into N sub-blocks with `chunk_index = 0..N-1`. -/
theorem chunkLargeNode_returns_only_first_window :
    (chunkLargeNodeAll c2Opts c2Node "a.ts" c2Content "typescript" none 0).length = 4 ∧
    chunkFile c2Opts "a.ts" c2Content c2Root "typescript" 0 =
      (chunkLargeNodeAll c2Opts c2Node "a.ts" c2Content "typescript" none 0).take 1 := by
  decide

/-- Claim C6 (counterexample).  The single block the chunker produces for
`c6Content` carries `start_line = 1, end_line = 2` but its `block_id`
is the hash of the 0-based rows `0:1`, not of the 1-based attributes
`1:2` as the claim states: `specBlockId` disagrees with the produced id. -/
theorem block_id_not_one_based_cex :
    ((chunkFile defaultChunkingOptions "a.ts" c6Content c6Root "typescript" 0).map
        (fun b => (b.id, specBlockId b 0))) =
      [("b992b63c1a4866e9", "246f9dfc70de7a2d")] ∧
    ("b992b63c1a4866e9" : String) ≠ "246f9dfc70de7a2d" := by
  decide

/-- Claim C5 (counterexample).  A file whose bytes are unchanged (the cached
hash equals the freshly computed hash) but whose mtime moved from 5 to 10:
the protocol returns early *without* bumping the cached mtime — it stays
5, while the claim requires it to become 10. -/
theorem cache_hit_keeps_mtime_cex :
    (lookupEntry (processFileModel "a.ts" c5Env c5Sys).sys.cache "a.ts").map
        CacheEntry.lastModified = some 5 ∧
    c5Env.statResult = some (3, 10) ∧ (5 : Nat) ≠ 10 := by
  decide

/-- Claim C1 (counterexample).  With one old block indexed for `a.ts`, a run
whose parse step fails (after the up-front delete transaction) ends with
*no* blocks for the file: the previous indexed state is not preserved on
failure, contradicting the claimed per-file atomicity. -/
theorem processFile_not_atomic_cex :
    blocksFor "a.ts" (processFileModel "a.ts" c1Env c1Sys).sys.store = [] ∧
    blocksFor "a.ts" c1Sys.store = [c1OldBlock] := by
  decide

/-- Claim C8 (counterexample).  The trace `c8Ops` hands out the labels
`[0, 1, 1]`: after the delete of `g.ts` removed label 1's mapping row and
the restart recovered `next_label = MAX(label)+1 = 1`, the third insert
reuses label 1 — the labels assigned over the store's lifetime are not
strictly increasing. -/
theorem vector_label_reuse_after_restart_cex :
    (runOps c8Ops emptyStore).2 = [0, 1, 1] ∧
    ¬ List.Pairwise (fun a b => a < b) (runOps c8Ops emptyStore).2 := by
  decide

/-- Claim C5 (amended).  When the freshly computed content hash equals the
cached hash, the protocol performs zero embedder calls, commits no
transaction, mutates nothing in the store, and leaves the cache entry —
including its mtime — entirely unchanged; only the processed-files
counter moves. -/
theorem cache_hit_skips_without_touching_state
    (filePath content : String) (env : FileEnv) (s : ProcSys) (stat : Nat × Nat)
    (cached : CacheEntry)
    (hread : env.readResult = some content)
    (hstat : env.statResult = some stat)
    (hcache : lookupEntry s.cache filePath = some cached)
    (hhash : cached.hash = sha256Hex content) :
    processFileModel filePath env s =
      { sys := { s with filesProcessed := s.filesProcessed + 1 }, commits := [] } := by
  simp [processFileModel, hread, hstat, hcache, hhash]

theorem cache_hit_skips_without_touching_state_witness :
    c5Env.readResult = some "abc" ∧
    c5Env.statResult = some (3, 10) ∧
    lookupEntry c5Sys.cache "a.ts" = some
      { hash := "ba7816bf8f01cfea414140de5dae2223b00361a396177a9cb410ff61f20015ad",
        lastModified := 5, size := 3 } ∧
    ("ba7816bf8f01cfea414140de5dae2223b00361a396177a9cb410ff61f20015ad" : String) =
      sha256Hex "abc" ∧
    processFileModel "a.ts" c5Env c5Sys =
      { sys := { c5Sys with filesProcessed := c5Sys.filesProcessed + 1 }, commits := [] } :=
  ⟨by decide, by decide, by decide, by decide,
   cache_hit_skips_without_touching_state "a.ts" "abc" c5Env c5Sys (3, 10)
     { hash := "ba7816bf8f01cfea414140de5dae2223b00361a396177a9cb410ff61f20015ad",
       lastModified := 5, size := 3 }
     (by decide) (by decide) (by decide) (by decide)⟩

/-- Claim C6 (amended).  For every semantic node that is not oversized, the
emitted Block's `block_id` is the first 16 hex characters of SHA-256 over
`file_path`, `start_line − 1`, `end_line − 1` (the parser's 0-based
rows), `block_type` and chunk index 0 — in particular it is a
deterministic function of the attribute 5-tuple. -/
theorem semantic_block_id_zero_based
    (opts : ChunkingOptions) (n : SNode) (filePath content language : String)
    (parent : Option String) (now : Nat)
    (h : ¬ estimateTokens (extractNodeContent content n.startRow n.endRow) >
        opts.maxTokens) :
    ∀ b ∈ createSemanticBlock opts n filePath content language parent now,
      b.id = generateId filePath (b.startLine - 1) (b.endLine - 1) b.blockType 0 := by
  intro b hb
  simp only [createSemanticBlock, if_neg h, Option.mem_def, Option.some.injEq] at hb
  subst hb
  simp

theorem semantic_block_id_zero_based_witness :
    (¬ estimateTokens (extractNodeContent c6Content c6Node.startRow c6Node.endRow) >
        defaultChunkingOptions.maxTokens) ∧
    ∀ b ∈ createSemanticBlock defaultChunkingOptions c6Node "a.ts" c6Content
        "typescript" none 0,
      b.id = generateId "a.ts" (b.startLine - 1) (b.endLine - 1) b.blockType 0 :=
  ⟨by decide,
   semantic_block_id_zero_based defaultChunkingOptions c6Node "a.ts" c6Content
     "typescript" none 0 (by decide)⟩

/-! Labels within one process lifetime -/

theorem runOps_labels_lower (ops : List VOp) (s : Store) (h : VOp.restart ∉ ops) :
    ∀ l ∈ (runOps ops s).2, s.nextLabel ≤ l := by
  induction ops generalizing s with
  | nil => simp [runOps]
  | cons op rest ih =>
      have hrest : VOp.restart ∉ rest := fun hm => h (List.mem_cons_of_mem _ hm)
      cases op with
      | addBlock b =>
          intro l hl
          exact ih (addCodeBlock s b) hrest l hl
      | addVec id v =>
          intro l hl
          simp only [runOps, List.mem_cons] at hl
          rcases hl with rfl | hl
          · exact le_refl _
          · have := ih _ hrest l hl
            simpa using Nat.le_of_succ_le this
      | deleteFile f =>
          intro l hl
          exact ih (deleteBlocksByFile s f) hrest l hl
      | restart => exact absurd (List.mem_cons_self _ _) (fun hm => (h hm).elim)

/-- Claim C8 (amended).  Within a single process lifetime (no restart in the
trace) the labels handed out by `addVector` are strictly increasing —
never reused.  A label *can* recur across a restart, because `initialize`
recovers the counter as `MAX(label)+1` over the surviving mapping rows,
which forgets labels whose rows were deleted. -/
theorem vector_labels_monotone_without_restart (ops : List VOp) (s : Store)
    (h : VOp.restart ∉ ops) :
    List.Pairwise (fun a b => a < b) (runOps ops s).2 := by
  induction ops generalizing s with
  | nil => simp [runOps]
  | cons op rest ih =>
      have hrest : VOp.restart ∉ rest := fun hm => h (List.mem_cons_of_mem _ hm)
      cases op with
      | addBlock b => exact ih (addCodeBlock s b) hrest
      | addVec id v =>
          simp only [runOps]
          refine List.Pairwise.cons ?_ (ih _ hrest)
          intro l hl
          have := runOps_labels_lower rest _ hrest l hl
          simpa using Nat.lt_of_succ_le (by simpa using this)
      | deleteFile f => exact ih (deleteBlocksByFile s f) hrest
      | restart => exact absurd (List.mem_cons_self _ _) (fun hm => (h hm).elim)



theorem vector_labels_monotone_without_restart_witness :
    VOp.restart ∉ c8WitnessOps ∧
    List.Pairwise (fun a b => a < b) (runOps c8WitnessOps emptyStore).2 :=
  ⟨by decide, vector_labels_monotone_without_restart c8WitnessOps emptyStore (by decide)⟩



/-- Claim C3 (counterexample).  For the query `auth`, the expansion set
contains `authentication`, but the only query string ever handed to the
keyword (FTS) channel is the original `auth`: `HybridSearch.search` never
invokes the `QueryExpander`. -/
theorem keyword_search_not_expanded_cex :
    "authentication" ∈ (expandQueryModel "auth").expanded ∧
    (searchModel plainSearchEnv "auth" { limit := 20 }).ftsQueries = ["auth"] ∧
    "authentication" ∉ (searchModel plainSearchEnv "auth" { limit := 20 }).ftsQueries := by
  decide

/-- Claim C3 (amended).  Both retrieval channels consume exactly the
original query string: the keyword channel issues one `fullTextSearch`
call with the raw query (when enabled), and the semantic channel embeds
the raw query (when enabled); the `QueryExpander` is not consulted. -/
theorem search_channels_use_original_query (env : SearchEnv) (query : String)
    (opts : HybridSearchOptions) :
    (searchModel env query opts).ftsQueries =
      (if opts.semanticOnly then [] else [query]) ∧
    (searchModel env query opts).embedQueries =
      (if opts.keywordOnly then [] else [query]) := by
  cases h : opts.rerank.getD env.cfgRerank <;>
    cases hs : opts.semanticOnly <;>
      cases hk : opts.keywordOnly <;>
        simp [searchModel, h, hs, hk]

/-- Claim C4 (counterexample).  A completed hybrid search (with one result)
run with re-ranking enabled records no `SearchStat` row at all. -/
theorem search_stats_skipped_when_rerank_cex :
    (searchModel kwSearchEnv "hello" { limit := 20, rerank := some true }).results.length
        = 1 ∧
    (searchModel kwSearchEnv "hello" { limit := 20, rerank := some true }).recordedStats
        = [] := by
  decide

/-- Claim C4 (amended).  A `SearchStat` row (query, result count, average
final score, wall-clock time) is handed to `recordSearchStats` exactly
when re-ranking is disabled; the re-ranking branch returns before the
recording statement.  (When the result list is empty the handed row
carries a `NULL` average and the insert itself aborts, so the row is not
persisted — the `thrown` flag of the model.) -/
theorem search_stats_recorded_iff_no_rerank (env : SearchEnv) (query : String)
    (opts : HybridSearchOptions) :
    (searchModel env query opts).recordedStats =
      (if opts.rerank.getD env.cfgRerank then []
       else [searchStatOf env query (searchModel env query opts).results]) := by
  cases h : opts.rerank.getD env.cfgRerank <;> simp [searchModel, h]

theorem applyFiltersModel_nil (opts : HybridSearchOptions) :
    applyFiltersModel [] opts = [] := by
  unfold applyFiltersModel
  cases hL : opts.language <;> cases hT : opts.blockType <;>
    cases hM : opts.minScore <;> simp

/-- Claim C7 (counterexample).  With `semantic_only` and `keyword_only`
both set and re-ranking disabled, the empty candidate set reaches the
stats stage: the handed row carries a `NaN` average (`none`, bound as
`NULL`), the `NOT NULL` `avg_score` column aborts the insert, and
`search()` throws instead of returning the empty list. -/
theorem dual_only_rerank_disabled_throws_cex :
    (searchModel plainSearchEnv "q" c7Opts).thrown = true ∧
    (searchModel plainSearchEnv "q" c7Opts).recordedStats.map SearchStats.avgScore =
      [none] := by
  decide

/-- Claim C7 (amended).  With `semantic_only` and `keyword_only` both set,
neither channel runs and every pipeline stage acts on the empty candidate
set.  When re-ranking is enabled the call returns the empty list; when
re-ranking is disabled, the empty result list makes the recorded average
`NaN`, the `NOT NULL` `avg_score` column aborts the stats insert, and the
call throws instead of returning. -/
theorem dual_only_search_empty_or_throws (env : SearchEnv) (query : String)
    (opts : HybridSearchOptions) (hs : opts.semanticOnly = true)
    (hk : opts.keywordOnly = true) :
    (opts.rerank.getD env.cfgRerank = true →
      (searchModel env query opts).thrown = false ∧
      (searchModel env query opts).results = []) ∧
    (opts.rerank.getD env.cfgRerank = false →
      (searchModel env query opts).thrown = true) := by
  constructor
  · intro h
    simp [searchModel, hs, hk, h, mergeResultsModel, applyFiltersModel_nil,
      sortByDesc, rerankModel]
  · intro h
    simp [searchModel, hs, hk, h, mergeResultsModel, applyFiltersModel_nil,
      sortByDesc, statInsertAborts, searchStatOf]

theorem dual_only_search_empty_or_throws_witness :
    ({ limit := 5, semanticOnly := true, keywordOnly := true } :
        HybridSearchOptions).semanticOnly = true ∧
    ({ limit := 5, semanticOnly := true, keywordOnly := true } :
        HybridSearchOptions).keywordOnly = true ∧
    ((({ limit := 5, semanticOnly := true, keywordOnly := true } :
          HybridSearchOptions).rerank.getD plainSearchEnv.cfgRerank = true →
        (searchModel plainSearchEnv "query"
          { limit := 5, semanticOnly := true, keywordOnly := true }).thrown = false ∧
        (searchModel plainSearchEnv "query"
          { limit := 5, semanticOnly := true, keywordOnly := true }).results = []) ∧
      (({ limit := 5, semanticOnly := true, keywordOnly := true } :
          HybridSearchOptions).rerank.getD plainSearchEnv.cfgRerank = false →
        (searchModel plainSearchEnv "query"
          { limit := 5, semanticOnly := true, keywordOnly := true }).thrown = true)) :=
  ⟨rfl, rfl, dual_only_search_empty_or_throws plainSearchEnv "query" _ rfl rfl⟩

/-! ## C9: the scanner never descends into symbolic links -/

theorem scan_descended_dirs (ign : String → Bool) (opts : ScanOpts) (maxDepth : Nat) :
    ∀ f : FSForest, ∀ pre depth,
      ∀ x ∈ (scanForest ign opts maxDepth f pre depth).descended, x.2 = DKind.dir := by
  intro f
  refine FSForest.rec
    (motive_1 := fun t => ∀ pre depth,
      ∀ x ∈ (scanEntry ign opts maxDepth t pre depth).descended, x.2 = DKind.dir)
    (motive_2 := fun f => ∀ pre depth,
      ∀ x ∈ (scanForest ign opts maxDepth f pre depth).descended, x.2 = DKind.dir)
    ?_ ?_ ?_ f
  · intro name kind cs ih pre depth x hx
    simp only [scanEntry] at hx
    by_cases h1 : ign (childRel pre name)
    · simp [h1, emptyAcc] at hx
    · simp only [h1, if_false, Bool.false_eq_true] at hx
      cases kind with
      | dir =>
          simp [accAppend, emptyAcc] at hx
          rcases hx with rfl | hx
          · rfl
          · exact ih (childRel pre name) (depth + 1) x hx
      | file =>
          by_cases h2 : shouldIncludeFile opts (childRel pre name) <;>
            simp [h2, emptyAcc] at hx
      | symlink => simp [emptyAcc] at hx
      | other => simp [emptyAcc] at hx
  · intro pre depth x hx
    simp only [scanForest] at hx
    by_cases h : depth > maxDepth <;> simp [h, emptyAcc] at hx
  · intro e rest ihe ihrest pre depth x hx
    simp only [scanForest] at hx
    by_cases h : depth > maxDepth
    · simp [h, emptyAcc] at hx
    · simp only [h, if_false, accAppend, List.mem_append, Bool.false_eq_true] at hx
      rcases hx with hx | hx
      · exact ihe pre depth x hx
      · have := ihrest pre depth x
        simp only [scanForest, h, if_false, Bool.false_eq_true] at this
        exact this hx

/-- Claim C9 (confirmed).  With default scan options, every entry the
scanner descends into is a real directory `Dirent`; since `fs.readdir`
classifies entries without following links, a symbolic link never
satisfies `entry.isDirectory()` and is therefore never traversed —
symlinked directories are not followed. -/
theorem scanner_descends_only_real_directories (rootChildren : FSForest)
    (ign : String → Bool) :
    ((scanModel rootChildren ign defaultScanOpts).descended).all
      (fun x => x.2 == DKind.dir) = true := by
  rw [List.all_eq_true]
  intro x hx
  have hk := scan_descended_dirs ign defaultScanOpts
      (defaultScanOpts.maxDepth.getD 50) rootChildren "" 0 x hx
  simp [hk]

/-! ## C1: the per-file protocol is delete-then-insert, not atomic -/



theorem addVector_codeBlocks (s : Store) (id : String) (v : List ℚ) :
    ((addVector s id v).1).codeBlocks = s.codeBlocks := rfl

theorem addFileMetadata_codeBlocks (s : Store) (m : FileMeta) :
    (addFileMetadata s m).codeBlocks = s.codeBlocks := rfl

theorem addCodeBlock_codeBlocks_of_no_conflict (s : Store) (b : CodeBlock)
    (h : ∀ r ∈ s.codeBlocks, ¬ blockConflict r b) :
    (addCodeBlock s b).codeBlocks = s.codeBlocks ++ [b] := by
  unfold addCodeBlock
  simp only
  rw [List.filter_eq_self.mpr]
  intro r hr
  have hthis := h r hr
  unfold blockConflict at hthis
  simp only [decide_eq_true_eq]
  tauto

theorem insertNewBlocks_codeBlocks (bs : List CodeBlock) (vecs : List (List ℚ))
    (s : Store)
    (hpair : bs.Pairwise (fun a b => ¬ blockConflict a b))
    (hold : ∀ b ∈ bs, ∀ r ∈ s.codeBlocks, ¬ blockConflict r b) :
    (insertNewBlocks s bs vecs).codeBlocks = s.codeBlocks ++ bs := by
  induction bs generalizing vecs s with
  | nil => cases vecs <;> simp [insertNewBlocks]
  | cons b bs ih =>
      rcases List.pairwise_cons.mp hpair with ⟨hb, hpair2⟩
      have hstep : ∀ v, ((addVector (addCodeBlock s b) b.id v).1).codeBlocks =
          s.codeBlocks ++ [b] := by
        intro v
        rw [addVector_codeBlocks,
          addCodeBlock_codeBlocks_of_no_conflict s b (hold b (List.mem_cons_self b bs))]
      have hold2 : ∀ v, ∀ b2 ∈ bs,
          ∀ r ∈ ((addVector (addCodeBlock s b) b.id v).1).codeBlocks,
            ¬ blockConflict r b2 := by
        intro v b2 hb2 r hr
        rw [hstep v] at hr
        rcases List.mem_append.mp hr with hr | hr
        · exact hold b2 (List.mem_cons_of_mem _ hb2) r hr
        · rcases List.mem_singleton.mp hr with rfl
          exact hb b2 hb2
      cases vecs with
      | nil =>
          rw [show insertNewBlocks s (b :: bs) [] =
              insertNewBlocks ((addVector (addCodeBlock s b) b.id []).1) bs [] from rfl,
            ih [] _ hpair2 (hold2 []), hstep []]
          simp
      | cons v vs =>
          rw [show insertNewBlocks s (b :: bs) (v :: vs) =
              insertNewBlocks ((addVector (addCodeBlock s b) b.id v).1) bs vs from rfl,
            ih vs _ hpair2 (hold2 v), hstep v]
          simp

theorem blocksFor_delete (s : Store) (f : String) :
    blocksFor f (deleteBlocksByFile s f) = [] := by
  unfold blocksFor deleteBlocksByFile
  simp only [List.filter_filter]
  rw [List.filter_eq_nil_iff]
  intro b _
  by_cases h : b.filePath = f <;> simp [h]

/-- Claim C1 (amended).  For a cache-missing file that reads successfully,
the protocol first commits a transaction that deletes the file's existing
blocks — observably leaving the file with *no* blocks — and only later
(after parsing and embedding) commits a second transaction inserting the
new blocks, vectors and metadata.  If parsing or embedding fails in
between, the run ends in the deleted state (the previous state is lost);
if they succeed, all new blocks land in the second commit. -/
theorem processFile_delete_then_insert
    (filePath content : String) (env : FileEnv) (s : ProcSys) (stat : Nat × Nat)
    (hread : env.readResult = some content)
    (hstat : env.statResult = some stat)
    (hmiss : ∀ cached, lookupEntry s.cache filePath = some cached →
        cached.hash ≠ sha256Hex content) :
    (processFileModel filePath env s).commits.head? =
        some (deleteBlocksByFile s.store filePath) ∧
    blocksFor filePath (deleteBlocksByFile s.store filePath) = [] ∧
    (env.parseResult = none →
      (processFileModel filePath env s).sys.store =
        deleteBlocksByFile s.store filePath) ∧
    (∀ parsed, env.parseResult = some parsed → env.embedOk = false →
      (processFileModel filePath env s).sys.store =
        deleteBlocksByFile s.store filePath) ∧
    (∀ parsed, env.parseResult = some parsed → env.embedOk = true →
      (∀ b ∈ parsed.blocks, b.filePath = filePath) →
      parsed.blocks.Pairwise (fun a b => ¬ blockConflict a b) →
      (∀ b ∈ parsed.blocks, ∀ r ∈ s.store.codeBlocks, r.filePath ≠ filePath →
        ¬ blockConflict r b) →
      blocksFor filePath (processFileModel filePath env s).sys.store = parsed.blocks) := by
  have hskip :
      (match lookupEntry s.cache filePath with
        | some cached => cached.hash == sha256Hex content
        | none => false) = false := by
    cases hc : lookupEntry s.cache filePath with
    | none => rfl
    | some cached => simpa using hmiss cached hc
  have hold2 : ∀ (parsed : Parsed),
      (∀ b ∈ parsed.blocks, ∀ r ∈ s.store.codeBlocks, r.filePath ≠ filePath →
        ¬ blockConflict r b) →
      ∀ b ∈ parsed.blocks,
        ∀ r ∈ (deleteBlocksByFile s.store filePath).codeBlocks, ¬ blockConflict r b := by
    intro parsed hnc b hb r hr
    unfold deleteBlocksByFile at hr
    simp only [List.mem_filter, decide_not, Bool.not_eq_eq_eq_not, Bool.not_true,
      decide_eq_false_iff_not] at hr
    exact hnc b hb r hr.1 hr.2
  refine ⟨?_, blocksFor_delete s.store filePath, ?_, ?_, ?_⟩
  · unfold processFileModel
    rw [hread, hstat]
    simp only [hskip, Bool.false_eq_true, if_false]
    cases hp : env.parseResult with
    | none => rfl
    | some parsed => cases he : env.embedOk <;> simp
  · intro hp
    unfold processFileModel
    rw [hread, hstat]
    simp [hskip, hp]
  · intro parsed hp he
    unfold processFileModel
    rw [hread, hstat]
    simp [hskip, hp, he]
  · intro parsed hp he hpaths hpair hnc
    unfold processFileModel
    rw [hread, hstat]
    simp only [hskip, Bool.false_eq_true, if_false, hp, he, if_true]
    unfold blocksFor
    rw [addFileMetadata_codeBlocks,
      insertNewBlocks_codeBlocks parsed.blocks env.embedVecs _ hpair (hold2 parsed hnc),
      List.filter_append]
    have h1 : List.filter (fun b => b.filePath = filePath)
        (deleteBlocksByFile s.store filePath).codeBlocks = [] := blocksFor_delete s.store filePath
    rw [h1, List.nil_append, List.filter_eq_self.mpr]
    intro b hb
    simpa using hpaths b hb



theorem processFile_delete_then_insert_witness :
    (∀ cached, lookupEntry c1Sys.cache "a.ts" = some cached →
        cached.hash ≠ sha256Hex "new text") ∧
    (processFileModel "a.ts" c1SuccessEnv c1Sys).commits.head? =
        some (deleteBlocksByFile c1Sys.store "a.ts") ∧
    blocksFor "a.ts" (processFileModel "a.ts" c1SuccessEnv c1Sys).sys.store =
      [c1NewB1, c1NewB2] := by
  have hmiss : ∀ cached, lookupEntry c1Sys.cache "a.ts" = some cached →
      cached.hash ≠ sha256Hex "new text" := by
    intro cached hc
    simp [c1Sys, lookupEntry] at hc
  have H := processFile_delete_then_insert "a.ts" "new text" c1SuccessEnv c1Sys (8, 1)
    rfl rfl hmiss
  exact ⟨hmiss, H.1,
    H.2.2.2.2 _ rfl rfl (by decide) (by decide) (by decide)⟩

/-! ## C10: the returned result list never repeats a block id -/



theorem mapSet_keyed {m : List (String × SearchResult)} {k : String}
    {v : SearchResult} (h : MapKeyed m) (hv : v.blockId = k) :
    MapKeyed (mapSet m k v) := by
  unfold mapSet
  cases hany : m.any (fun p => p.1 = k) with
  | true =>
      simp only [if_true]
      constructor
      · have : (m.map (fun p => if p.1 = k then (k, v) else p)).map Prod.fst =
            m.map Prod.fst := by
          rw [List.map_map]
          refine List.map_congr_left ?_
          intro p _
          by_cases hp : p.1 = k <;> simp [hp]
        rw [this]
        exact h.1
      · intro p hp
        rcases List.mem_map.mp hp with ⟨q, hq, hqe⟩
        by_cases hqk : q.1 = k
        · rw [if_pos hqk] at hqe
          rw [← hqe]
          exact hv
        · rw [if_neg hqk] at hqe
          rw [← hqe]
          exact h.2 q hq
  | false =>
      simp only [Bool.false_eq_true, if_false]
      constructor
      · rw [List.map_append]
        simp only [List.map_cons, List.map_nil]
        rw [List.nodup_append]
        refine ⟨h.1, List.nodup_singleton k, ?_⟩
        intro a ha hak
        rcases List.mem_singleton.mp hak with rfl
        rcases List.mem_map.mp ha with ⟨q, hq, rfl⟩
        have hq2 := List.any_eq_false.mp hany q hq
        simp at hq2
      · intro p hp
        rcases List.mem_append.mp hp with hp | hp
        · exact h.2 p hp
        · rcases List.mem_singleton.mp hp with rfl
          exact hv

theorem mapGet_blockId {m : List (String × SearchResult)} {k : String}
    {ex : SearchResult} (h : MapKeyed m) (hget : mapGet m k = some ex) :
    ex.blockId = k := by
  unfold mapGet at hget
  rcases Option.map_eq_some'.mp hget with ⟨p, hfind, rfl⟩
  have hmem := List.mem_of_find?_eq_some hfind
  have hkey := List.find?_some hfind
  simp only [decide_eq_true_eq] at hkey
  rw [h.2 p hmem, hkey]

theorem mergeSemStep_keyed (ws wk : ℚ) {m : List (String × SearchResult)}
    (r : SearchResult) (h : MapKeyed m) : MapKeyed (mergeSemStep ws wk m r) := by
  unfold mergeSemStep
  cases hget : mapGet m r.blockId with
  | none => exact mapSet_keyed h rfl
  | some ex =>
      have hex : ex.blockId = r.blockId := mapGet_blockId h hget
      exact @mapSet_keyed m r.blockId
        { ex with
          semanticScore := max ex.semanticScore r.semanticScore,
          finalScore := (max ex.semanticScore r.semanticScore * ws +
            ex.keywordScore * wk) / (ws + wk) } h hex

theorem mergeKwStep_keyed (ws wk : ℚ) {m : List (String × SearchResult)}
    (r : SearchResult) (h : MapKeyed m) : MapKeyed (mergeKwStep ws wk m r) := by
  unfold mergeKwStep
  cases hget : mapGet m r.blockId with
  | none => exact mapSet_keyed h rfl
  | some ex =>
      have hex : ex.blockId = r.blockId := mapGet_blockId h hget
      exact @mapSet_keyed m r.blockId
        { ex with
          keywordScore := max ex.keywordScore r.keywordScore,
          finalScore := (ex.semanticScore * ws +
            max ex.keywordScore r.keywordScore * wk) / (ws + wk) } h hex

theorem foldl_keyed (step : List (String × SearchResult) → SearchResult →
    List (String × SearchResult))
    (hstep : ∀ m r, MapKeyed m → MapKeyed (step m r)) :
    ∀ (l : List SearchResult) (m : List (String × SearchResult)),
      MapKeyed m → MapKeyed (l.foldl step m) := by
  intro l
  induction l with
  | nil => intro m hm; simpa using hm
  | cons r rest ih =>
      intro m hm
      simpa using ih (step m r) (hstep m r hm)

theorem keyed_values_pairwise {m : List (String × SearchResult)} (h : MapKeyed m) :
    (m.map Prod.snd).Pairwise (fun a b => a.blockId ≠ b.blockId) := by
  rw [List.pairwise_map]
  have h1 : m.Pairwise (fun p q => p.1 ≠ q.1) := by
    have h0 : (m.map Prod.fst).Pairwise (fun a b => a ≠ b) := h.1
    rw [List.pairwise_map] at h0
    exact h0
  exact List.Pairwise.imp_of_mem
    (fun {p q} hp hq hne => by rw [h.2 p hp, h.2 q hq]; exact hne) h1

theorem mergeResultsModel_pairwise (sem kw : List SearchResult) (ws wk : ℚ) :
    (mergeResultsModel sem kw ws wk).Pairwise (fun a b => a.blockId ≠ b.blockId) := by
  unfold mergeResultsModel
  apply keyed_values_pairwise
  apply foldl_keyed _ (fun m r hm => mergeKwStep_keyed ws wk r hm)
  apply foldl_keyed _ (fun m r hm => mergeSemStep_keyed ws wk r hm)
  exact ⟨List.nodup_nil, by simp⟩

theorem pairwise_blockId_map {l : List SearchResult} (f : SearchResult → SearchResult)
    (hf : ∀ r, (f r).blockId = r.blockId)
    (h : l.Pairwise (fun a b => a.blockId ≠ b.blockId)) :
    (l.map f).Pairwise (fun a b => a.blockId ≠ b.blockId) := by
  rw [List.pairwise_map]
  exact h.imp (fun {a b} hab => by rw [hf a, hf b]; exact hab)

theorem ite_filter_sublist {α : Type} (c : Prop) [Decidable c] (p : α → Bool)
    (x : List α) : (if c then x.filter p else x).Sublist x := by
  split
  · exact List.filter_sublist x
  · exact List.Sublist.refl x

theorem applyFiltersModel_sublist (l : List SearchResult)
    (opts : HybridSearchOptions) : (applyFiltersModel l opts).Sublist l := by
  unfold applyFiltersModel
  cases hL : opts.language <;> cases hT : opts.blockType <;>
    cases hM : opts.minScore <;>
    first
      | exact List.Sublist.refl _
      | exact ite_filter_sublist _ _ _
      | exact (ite_filter_sublist _ _ _).trans (ite_filter_sublist _ _ _)
      | exact (ite_filter_sublist _ _ _).trans
          ((ite_filter_sublist _ _ _).trans (ite_filter_sublist _ _ _))

theorem pairwise_blockId_sortByDesc {l : List SearchResult}
    (f : SearchResult → ℚ)
    (h : l.Pairwise (fun a b => a.blockId ≠ b.blockId)) :
    (sortByDesc f l).Pairwise (fun a b => a.blockId ≠ b.blockId) := by
  have hperm : (sortByDesc f l).Perm l := List.perm_insertionSort _ l
  exact (List.Perm.pairwise_iff (fun hab => Ne.symm hab) hperm).mpr h

theorem pairwise_blockId_rerank {l : List SearchResult} (query : String)
    (h : l.Pairwise (fun a b => a.blockId ≠ b.blockId)) :
    (rerankModel l query).Pairwise (fun a b => a.blockId ≠ b.blockId) := by
  unfold rerankModel
  split
  · exact h
  · have h1 : (l.map (fun r => (r, calculateRerankScore r query))).Pairwise
        (fun p q => p.1.blockId ≠ q.1.blockId) := by
      rw [List.pairwise_map]
      exact h.imp (fun {a b} hab => hab)
    have hperm : (sortByDesc Prod.snd
        (l.map (fun r => (r, calculateRerankScore r query)))).Perm
        (l.map (fun r => (r, calculateRerankScore r query))) :=
      List.perm_insertionSort _ _
    have h2 := (List.Perm.pairwise_iff (fun hab => Ne.symm hab) hperm).mpr h1
    rw [List.pairwise_map]
    exact h2.imp (fun {a b} hab => hab)

theorem search_pipeline_pairwise (sem kw : List SearchResult) (ws wk : ℚ)
    (opts : HybridSearchOptions) (query : String) :
    (List.take opts.limit (sortByDesc SearchResult.finalScore
      (applyFiltersModel
        ((mergeResultsModel sem kw ws wk).map (fun r =>
          { r with boostScore := calculateBoost [] [] r query,
                   finalScore := r.finalScore * calculateBoost [] [] r query }))
        opts))).Pairwise (fun a b => a.blockId ≠ b.blockId) := by
  have h1 := mergeResultsModel_pairwise sem kw ws wk
  have h2 := pairwise_blockId_map
    (fun r => { r with boostScore := calculateBoost [] [] r query,
                       finalScore := r.finalScore * calculateBoost [] [] r query })
    (fun r => rfl) h1
  have h3 := List.Pairwise.sublist (applyFiltersModel_sublist _ opts) h2
  have h4 := pairwise_blockId_sortByDesc SearchResult.finalScore h3
  exact List.Pairwise.sublist (List.take_sublist _ _) h4

/-- Claim C10 (confirmed).  The result list of a hybrid search never repeats
a `block_id`: fusion unions candidates keyed by `block_id`, and boosting,
filtering, sorting, truncation and re-ranking preserve distinctness. -/
theorem search_results_block_ids_distinct (env : SearchEnv) (query : String)
    (opts : HybridSearchOptions) :
    ((searchModel env query opts).results).Pairwise
      (fun a b => a.blockId ≠ b.blockId) := by
  simp only [searchModel]
  split
  · exact pairwise_blockId_rerank query (search_pipeline_pairwise _ _ _ _ _ query)
  · exact search_pipeline_pairwise _ _ _ _ _ query

end Syntheo
